import Mathlib

/-!
# Storage/main.go : the file-backed append log served over HTTP

A shallow embedding of `Storage/main.go`.

* Text (request bodies, the content of the log file, response bodies) is a sequence of Unicode
  code points, `List Char`: the bytes are taken to be valid UTF-8. On such text
  `strings.TrimSpace` removes the leading and the trailing code points for which
  `unicode.IsSpace` holds.
* The state is the log file at `ls.logPath`: `none` while the file does not exist, `some c`
  when it exists with content `c`.
* The operating-system calls of a handler can fail; what they do during one request is given
  by an `OSOutcome`, an input of the handler next to the request.
* A handler returns the response it writes to the `http.ResponseWriter` and the new state.
* The `ServeMux` works on `r.URL.Path`; requests are HTTP/1.1 or later, and a URL has no query.
-/

namespace Storage

/-! ## Library functions used by the source -/

/-- Go `unicode.IsSpace`: the Latin-1 spaces `\t \n \v \f \r`, space, U+0085, U+00A0, and
above Latin-1 the `White_Space` table. -/
def IsSpace (r : Char) : Bool :=
  let n := r.toNat
  if n ≤ 0xFF then
    n == 0x09 || n == 0x0A || n == 0x0B || n == 0x0C || n == 0x0D || n == 0x20
      || n == 0x85 || n == 0xA0
  else
    n == 0x1680 || (0x2000 ≤ n && n ≤ 0x200A) || n == 0x2028 || n == 0x2029
      || n == 0x202F || n == 0x205F || n == 0x3000

/-- Go `strings.TrimLeftFunc`: drop the leading code points that satisfy `f`. -/
def TrimLeftFunc (s : List Char) (f : Char → Bool) : List Char :=
  s.dropWhile f

/-- Go `strings.TrimRightFunc`: drop the trailing code points that satisfy `f`. -/
def TrimRightFunc (s : List Char) (f : Char → Bool) : List Char :=
  s.rdropWhile f

/-- Go `strings.TrimFunc`: `TrimRightFunc(TrimLeftFunc(s, f), f)`. -/
def TrimFunc (s : List Char) (f : Char → Bool) : List Char :=
  TrimRightFunc (TrimLeftFunc s f) f

/-- Go `strings.TrimSpace`: all leading and trailing white space removed, as defined by
`unicode.IsSpace`. -/
def TrimSpace (s : List Char) : List Char :=
  TrimFunc s IsSpace

/-- Go `strings.Split(s, "\n")`: the pieces of `s` between newline characters. -/
def SplitLines (s : List Char) : List (List Char) :=
  s.splitOn '\n'

/-! ## Constants of `net/http` -/

def MethodGet : String := "GET"
def MethodPost : String := "POST"
def StatusOK : Nat := 200
def StatusCreated : Nat := 201
def StatusMovedPermanently : Nat := 301
def StatusBadRequest : Nat := 400
def StatusNotFound : Nat := 404
def StatusMethodNotAllowed : Nat := 405
def StatusInternalServerError : Nat := 500

/-! ## Requests, responses, the log file and the outcome of the system calls -/

/-- The part of `*http.Request` the handlers look at. -/
structure Request where
  /-- The field `r.Method`. -/
  Method : String
  /-- The field `r.URL.Path`, which the `ServeMux` matches against its patterns. -/
  Path : String
  /-- The bytes `io.ReadAll(r.Body)` returns. -/
  Body : List Char
  /-- Whether `io.ReadAll(r.Body)` returns an error. -/
  BodyErr : Bool
  deriving DecidableEq

/-- What a handler has written to its `http.ResponseWriter`. -/
structure Response where
  /-- The header fields set by the handler, latest first. -/
  header : List (String × String)
  /-- The status code passed to `WriteHeader`. -/
  status : Nat
  /-- The bytes written to the body. -/
  body : List Char
  deriving DecidableEq

/-- The file at `ls.logPath`: `none` when it does not exist, else its content. -/
abbrev LogFile := Option (List Char)

/-- The outcome of the system calls made while one request is handled. -/
structure OSOutcome where
  /-- Whether `os.Stat(ls.logPath)` fails with an error other than not-exist, one for which
  `os.IsNotExist` does not hold (the directory cannot be searched, a component of the path is
  not a directory). -/
  statErr : Bool
  /-- Whether `os.OpenFile(ls.logPath, O_APPEND|O_CREATE|O_WRONLY, 0644)` fails. -/
  openAppendErr : Bool
  /-- The error of `fmt.Fprintf(file, "%s\n", record)`: `none` when the whole text is written,
  `some n` when the write fails after the first `n` characters have reached the file. -/
  writeErr : Option Nat
  /-- Whether `os.Open(ls.logPath)` fails on an existing file. On a file that does not exist
  it always fails. -/
  openErr : Bool
  /-- The error of `io.Copy(w, file)`: `none` when the whole file is copied, `some n` when the
  copy fails after the first `n` characters have been sent. -/
  copyErr : Option Nat
  deriving DecidableEq

/-- A handler: from the log file, the outcome of the system calls and the request, to the
response and the log file afterwards. -/
abbrev Handler := LogFile → OSOutcome → Request → Response × LogFile

/-- Go `http.Error(w, msg, code)`: sets the two header fields, writes the status and the
message followed by a newline. -/
def Error (msg : String) (code : Nat) : Response :=
  { header := [("X-Content-Type-Options", "nosniff"),
               ("Content-Type", "text/plain; charset=utf-8")],
    status := code,
    body := msg.toList ++ ['\n'] }

/-- The value of the header field `Content-Type` of a response, if set. -/
def Response.contentType (w : Response) : Option String :=
  w.header.lookup "Content-Type"

/-! ## The handlers of `main.go` -/

/-- Method `LogServer.addLogHandler` (main.go:34-71). -/
def addLogHandler : Handler := fun fs os r =>
  if r.Method ≠ MethodPost then
    (Error "Method not allowed" StatusMethodNotAllowed, fs)
  else if r.BodyErr then
    (Error "Failed to read request body" StatusBadRequest, fs)
  else
    let record := TrimSpace r.Body
    if record = [] then
      (Error "No data received" StatusBadRequest, fs)
    else if os.openAppendErr then
      (Error "Internal server error" StatusInternalServerError, fs)
    else
      -- O_CREATE: the file exists from here on; O_APPEND: writes go to its end
      let old := fs.getD []
      match os.writeErr with
      | some n =>
        (Error "Internal server error" StatusInternalServerError,
          some (old ++ (record ++ ['\n']).take n))
      | none =>
        ({ header := [], status := StatusCreated, body := "OK".toList },
          some (old ++ (record ++ ['\n'])))

/-- The test `_, err := os.Stat(ls.logPath); os.IsNotExist(err)` (main.go:80): the file does
not exist and `os.Stat` reports so. -/
def statNotExist (fs : LogFile) (os : OSOutcome) : Bool :=
  fs.isNone && !os.statErr

/-- Go `os.Open(ls.logPath)`: the content to read, `none` when the call fails. It fails on a
file that does not exist. -/
def Open (fs : LogFile) (os : OSOutcome) : Option (List Char) :=
  if os.openErr then none else fs

/-- Method `LogServer.getLogHandler` (main.go:73-101). -/
def getLogHandler : Handler := fun fs os r =>
  if r.Method ≠ MethodGet then
    (Error "Method not allowed" StatusMethodNotAllowed, fs)
  else if statNotExist fs os then
    ({ header := [("Content-Type", "text/plain")], status := StatusOK, body := [] }, fs)
  else
    match Open fs os with
    | none =>
      (Error "Internal server error" StatusInternalServerError, fs)
    | some content =>
      match os.copyErr with
      | some n =>
        ({ header := [("Content-Type", "text/plain")], status := StatusOK,
           body := content.take n }, fs)
      | none =>
        ({ header := [("Content-Type", "text/plain")], status := StatusOK,
           body := content }, fs)

/-- The function literal registered for `/log` in `setupRoutes` (main.go:105-114). -/
def logRoute : Handler := fun fs os r =>
  if r.Method = MethodPost then addLogHandler fs os r
  else if r.Method = MethodGet then getLogHandler fs os r
  else (Error "Method not allowed" StatusMethodNotAllowed, fs)

/-- Method `LogServer.setupRoutes` (main.go:103-116): the patterns of the `ServeMux` with their
handlers. -/
def setupRoutes : List (String × Handler) :=
  [("/log", logRoute)]

/-- Go `http.NotFound`: the reply of a `ServeMux` to a path without a pattern. -/
def NotFound : Handler := fun fs _ _ =>
  (Error "404 page not found" StatusNotFound, fs)

/-- Go `path.Clean`: the shortest path equivalent to `p`. The elements of `p` between slashes
are taken from left to right; an empty element and `.` are dropped, `..` removes the element
before it (at the root it is dropped, at the start of a path that is not rooted it stays). -/
def Clean (p : List Char) : List Char :=
  let rooted := p.head? = some '/'
  let out := (p.splitOn '/').foldl
    (fun (out : List (List Char)) (el : List Char) =>
      if el = [] ∨ el = ['.'] then out
      else if el = ['.', '.'] then
        if out ≠ [] ∧ out.getLast? ≠ some ['.', '.'] then out.dropLast
        else if rooted then out
        else out ++ [el]
      else out ++ [el])
    []
  if rooted then '/' :: List.intercalate ['/'] out
  else if out = [] then ['.']
  else List.intercalate ['/'] out

/-- Go `cleanPath` of `net/http`: the canonical path for `p`, rooted, without `.` and `..`, the
slash at the end kept. -/
def cleanPath (p : String) : String :=
  if p = "" then "/"
  else
    let p1 := if p.toList.head? ≠ some '/' then '/' :: p.toList else p.toList
    let np := Clean p1
    if p1.getLast? = some '/' ∧ np ≠ ['/'] then String.mk (np ++ ['/']) else String.mk np

/-- Go `htmlEscape` of `net/http`: the five characters `& < > " '` replaced. -/
def htmlEscape (s : List Char) : List Char :=
  (s.map (fun c =>
    if c = '&' then "&amp;".toList
    else if c = '<' then "&lt;".toList
    else if c = '>' then "&gt;".toList
    else if c = Char.ofNat 34 then "&#34;".toList
    else if c = Char.ofNat 39 then "&#39;".toList
    else [c])).flatten

/-- Go `http.Redirect(w, r, url, StatusMovedPermanently)` for a rooted `url`: the `Location`
field, for `GET` and `HEAD` the content type, the status, and for `GET` a short body. -/
def Redirect (url : String) (r : Request) : Response :=
  { header :=
      if r.Method = "GET" ∨ r.Method = "HEAD" then
        [("Content-Type", "text/html; charset=utf-8"), ("Location", url)]
      else [("Location", url)],
    status := StatusMovedPermanently,
    body :=
      if r.Method = "GET" then
        "<a href=\"".toList ++ htmlEscape url.toList ++ "\">Moved Permanently</a>.\n\n".toList
      else [] }

/-- Go `(*ServeMux).ServeHTTP`. The request-target `*`, for which `r.URL.Path` is `*`, is
answered 400. A request other than `CONNECT` whose path is not its own `cleanPath` is
redirected to the clean path. Else the handler of the pattern equal to the path serves the
request, `NotFound` when there is none. -/
def ServeHTTP (mux : List (String × Handler)) : Handler := fun fs os r =>
  if r.Path = "*" then
    ({ header := [("Connection", "close")], status := StatusBadRequest, body := [] }, fs)
  else
    let path := if r.Method = "CONNECT" then r.Path else cleanPath r.Path
    if path ≠ r.Path then
      (Redirect path r, fs)
    else
      match mux.lookup path with
      | some h => h fs os r
      | none => NotFound fs os r

/-- The server of `main`: `server.setupRoutes()` serving one request after the other. Returns the
responses in order and the log file at the end. -/
def serveAll (fs : LogFile) : List (Request × OSOutcome) → List Response × LogFile
  | [] => ([], fs)
  | (r, os) :: rest =>
    let out := ServeHTTP setupRoutes fs os r
    let tl := serveAll out.2 rest
    (out.1 :: tl.1, tl.2)

/-- A `POST /log` request with body `b` that is read without error. -/
def post (b : String) : Request :=
  { Method := "POST", Path := "/log", Body := b.toList, BodyErr := false }

/-- A `GET /log` request. -/
def get : Request :=
  { Method := "GET", Path := "/log", Body := [], BodyErr := false }

/-- Every system call succeeds. -/
def allOk : OSOutcome :=
  { statErr := false, openAppendErr := false, writeErr := none, openErr := false,
    copyErr := none }

/-- An outcome in which `os.Stat` fails with an error other than not-exist, and with it
`os.Open`. -/
def statFails : OSOutcome :=
  { statErr := true, openAppendErr := false, writeErr := none, openErr := true,
    copyErr := none }

/-- An outcome in which every system call succeeds except `os.Open`. -/
def openFails : OSOutcome :=
  { statErr := false, openAppendErr := false, writeErr := none, openErr := true,
    copyErr := none }

/-- An outcome in which every system call succeeds except `io.Copy`, which fails after `n`
characters. -/
def copyFails (n : Nat) : OSOutcome :=
  { statErr := false, openAppendErr := false, writeErr := none, openErr := false,
    copyErr := some n }

/-- An outcome in which every system call succeeds except the write of `fmt.Fprintf`, which
fails after `n` characters. -/
def writeFails (n : Nat) : OSOutcome :=
  { statErr := false, openAppendErr := false, writeErr := some n, openErr := false,
    copyErr := none }

/-- The records accepted while `server.setupRoutes()` serves the requests one after the other:
the trimmed bodies of the requests answered 201, in the order of the requests. -/
def accepted (fs : LogFile) : List (Request × OSOutcome) → List (List Char)
  | [] => []
  | (r, os) :: rest =>
    let out := ServeHTTP setupRoutes fs os r
    if out.1.status = StatusCreated then TrimSpace r.Body :: accepted out.2 rest
    else accepted out.2 rest

/-- The text of a list of records in the log file: each record followed by a newline. -/
def logText (records : List (List Char)) : List Char :=
  (records.map (fun record => record ++ ['\n'])).flatten

/-- The records that are lines of the log: the trimmed bodies of the requests answered 201,
in the order of the requests, that contain no newline and are appended to a log file that is
absent, empty or ended by a newline. -/
def lineRecords (fs : LogFile) : List (Request × OSOutcome) → List (List Char)
  | [] => []
  | (r, os) :: rest =>
    let out := ServeHTTP setupRoutes fs os r
    if out.1.status = StatusCreated ∧ '\n' ∉ TrimSpace r.Body ∧
        (fs.getD [] = [] ∨ (fs.getD []).getLast? = some '\n') then
      TrimSpace r.Body :: lineRecords out.2 rest
    else lineRecords out.2 rest

/-! ## Facts about `TrimSpace` -/

theorem TrimSpace_eq (s : List Char) :
    TrimSpace s = (s.dropWhile IsSpace).rdropWhile IsSpace := rfl

/-- A text of white space only is trimmed to the empty text. -/
theorem TrimSpace_of_all_space (s : List Char) (h : ∀ c ∈ s, IsSpace c = true) :
    TrimSpace s = [] := by
  have h1 : s.dropWhile IsSpace = [] := by
    rw [List.dropWhile_eq_nil_iff]
    exact h
  rw [TrimSpace_eq, h1]
  rfl

/-- The trimmed text is empty only when the text is white space only. -/
theorem all_space_of_TrimSpace_eq_nil (s : List Char) (h : TrimSpace s = []) :
    ∀ c ∈ s, IsSpace c = true := by
  rw [TrimSpace_eq, List.rdropWhile_eq_nil_iff] at h
  have h1 : s.dropWhile IsSpace = [] := by
    cases hd : s.dropWhile IsSpace with
    | nil => rfl
    | cons a t =>
      have hne : s.dropWhile IsSpace ≠ [] := by simp [hd]
      have ha := List.head_dropWhile_not IsSpace s hne
      have hm : (s.dropWhile IsSpace).head hne ∈ s.dropWhile IsSpace := List.head_mem hne
      have := h _ hm
      simp [this] at ha
  rw [List.dropWhile_eq_nil_iff] at h1
  exact h1

/-- The first character of a trimmed text is not white space. -/
theorem TrimSpace_head_not_space (s : List Char) (a : Char) (t : List Char)
    (h : TrimSpace s = a :: t) : IsSpace a = false := by
  rw [TrimSpace_eq] at h
  obtain ⟨u, hu⟩ : (s.dropWhile IsSpace).rdropWhile IsSpace <+: s.dropWhile IsSpace :=
    List.rdropWhile_prefix IsSpace _
  rw [h] at hu
  have hne : s.dropWhile IsSpace ≠ [] := by
    rw [← hu]
    simp
  have ha := List.head_dropWhile_not IsSpace s hne
  have : (s.dropWhile IsSpace).head hne = a := by
    simp [← hu]
  rw [this] at ha
  simpa using ha

/-- The last character of a trimmed text is not white space. -/
theorem TrimSpace_getLast_not_space (s : List Char) (hne : TrimSpace s ≠ []) :
    IsSpace ((TrimSpace s).getLast hne) = false := by
  have := List.rdropWhile_last_not IsSpace (s.dropWhile IsSpace) hne
  simpa using this

/-- Trimming a trimmed text changes nothing. -/
theorem TrimSpace_idem (s : List Char) : TrimSpace (TrimSpace s) = TrimSpace s := by
  have h1 : (TrimSpace s).dropWhile IsSpace = TrimSpace s := by
    cases ht : TrimSpace s with
    | nil => rfl
    | cons a t =>
      have := TrimSpace_head_not_space s a t ht
      simp [List.dropWhile, this]
  rw [TrimSpace_eq (TrimSpace s), h1, TrimSpace_eq, List.rdropWhile_idempotent]

theorem dropWhile_append_of_all {p : Char → Bool} (l s : List Char) (h : ∀ c ∈ l, p c = true) :
    (l ++ s).dropWhile p = s.dropWhile p := by
  induction l with
  | nil => rfl
  | cons a t ih =>
    have ha : p a = true := h a (List.mem_cons_self _ _)
    simp only [List.cons_append, List.dropWhile, ha]
    exact ih (fun c hc => h c (List.mem_cons_of_mem _ hc))

theorem rdropWhile_append_of_all {p : Char → Bool} (s l : List Char) (h : ∀ c ∈ l, p c = true) :
    (s ++ l).rdropWhile p = s.rdropWhile p := by
  induction l using List.reverseRecOn with
  | nil => simp
  | append_singleton t a ih =>
    have ha : p a = true := h a (by simp)
    rw [← List.append_assoc, List.rdropWhile_concat_pos _ _ _ ha]
    exact ih (fun c hc => h c (by simp [hc]))

theorem dropWhile_append_of_ne_nil {p : Char → Bool} (s l : List Char)
    (h : s.dropWhile p ≠ []) : (s ++ l).dropWhile p = s.dropWhile p ++ l := by
  induction s with
  | nil => simp at h
  | cons a t ih =>
    by_cases ha : p a = true
    · simp only [List.cons_append, List.dropWhile, ha] at h ⊢
      exact ih h
    · simp only [Bool.not_eq_true] at ha
      simp [List.dropWhile, ha]

/-- White space put before and after a text does not change its trimmed form. -/
theorem TrimSpace_pad (l s t : List Char) (hl : ∀ c ∈ l, IsSpace c = true)
    (ht : ∀ c ∈ t, IsSpace c = true) : TrimSpace (l ++ s ++ t) = TrimSpace s := by
  rw [TrimSpace_eq, TrimSpace_eq, List.append_assoc, dropWhile_append_of_all l _ hl]
  by_cases hs : s.dropWhile IsSpace = []
  · have hall : ∀ c ∈ s ++ t, IsSpace c = true := by
      intro c hc
      rcases List.mem_append.mp hc with h | h
      · exact (List.dropWhile_eq_nil_iff.mp hs) c h
      · exact ht c h
    rw [List.dropWhile_eq_nil_iff.mpr hall, hs]
  · rw [dropWhile_append_of_ne_nil s t hs, rdropWhile_append_of_all _ t ht]

/-! ## Facts about the handlers and the router -/

theorem cleanPath_log : cleanPath "/log" = "/log" := by decide

theorem ServeHTTP_log (fs : LogFile) (os : OSOutcome) (r : Request) (hp : r.Path = "/log") :
    ServeHTTP setupRoutes fs os r = logRoute fs os r := by
  have h1 : ¬ ("/log" = "*") := by decide
  unfold ServeHTTP
  rw [hp]
  simp only [h1, if_false, cleanPath_log, ite_self, ne_eq, not_true_eq_false]
  simp [setupRoutes, List.lookup]

theorem ServeHTTP_post (fs : LogFile) (os : OSOutcome) (r : Request)
    (hm : r.Method = MethodPost) (hp : r.Path = "/log") :
    ServeHTTP setupRoutes fs os r = addLogHandler fs os r := by
  rw [ServeHTTP_log fs os r hp]
  simp [logRoute, hm]

theorem ServeHTTP_get (fs : LogFile) (os : OSOutcome) (r : Request)
    (hm : r.Method = MethodGet) (hp : r.Path = "/log") :
    ServeHTTP setupRoutes fs os r = getLogHandler fs os r := by
  rw [ServeHTTP_log fs os r hp]
  have : MethodGet ≠ MethodPost := by decide
  simp [logRoute, hm, this]

/-- The handler `getLogHandler` never changes the log file and never answers 201. -/
theorem getLogHandler_state (fs : LogFile) (os : OSOutcome) (r : Request) :
    (getLogHandler fs os r).2 = fs ∧ (getLogHandler fs os r).1.status ≠ StatusCreated := by
  unfold getLogHandler
  split
  · exact ⟨rfl, by simp [Error, StatusMethodNotAllowed, StatusCreated]⟩
  · split
    · exact ⟨rfl, by simp [StatusOK, StatusCreated]⟩
    · split
      · exact ⟨rfl, by simp [Error, StatusInternalServerError, StatusCreated]⟩
      · split
        · exact ⟨rfl, by simp [StatusOK, StatusCreated]⟩
        · exact ⟨rfl, by simp [StatusOK, StatusCreated]⟩

/-- The router hands a request to `addLogHandler`, or the request leaves the log file as it
was and is not answered 201. -/
theorem serve_cases (fs : LogFile) (os : OSOutcome) (r : Request) :
    ServeHTTP setupRoutes fs os r = addLogHandler fs os r ∨
    ((ServeHTTP setupRoutes fs os r).2 = fs ∧
      (ServeHTTP setupRoutes fs os r).1.status ≠ StatusCreated) := by
  by_cases hp : r.Path = "/log"
  · rw [ServeHTTP_log fs os r hp]
    unfold logRoute
    by_cases hm : r.Method = MethodPost
    · left
      simp [hm]
    · right
      simp only [hm, if_false]
      by_cases hg : r.Method = MethodGet
      · simp only [hg, if_true]
        exact getLogHandler_state fs os r
      · simp [hg, Error, StatusMethodNotAllowed, StatusCreated]
  · right
    unfold ServeHTTP
    by_cases hstar : r.Path = "*"
    · rw [if_pos hstar]
      exact ⟨rfl, by simp [StatusBadRequest, StatusCreated]⟩
    · rw [if_neg hstar]
      simp only
      generalize (if r.Method = "CONNECT" then r.Path else cleanPath r.Path) = path
      by_cases hne : path ≠ r.Path
      · rw [if_pos hne]
        exact ⟨rfl, by simp [Redirect, StatusMovedPermanently, StatusCreated]⟩
      · rw [if_neg hne]
        have hpath : path = r.Path := by simpa using hne
        have hlog : (r.Path == "/log") = false := by simpa using hp
        simp [hpath, setupRoutes, List.lookup, hlog, NotFound, Error, StatusNotFound,
          StatusCreated]

/-- A request answered 201 by `addLogHandler`: the trimmed body is not empty and is put, with a
newline, at the end of the log file. -/
theorem addLogHandler_created (fs : LogFile) (os : OSOutcome) (r : Request)
    (h : (addLogHandler fs os r).1.status = StatusCreated) :
    TrimSpace r.Body ≠ [] ∧
    (addLogHandler fs os r).2 = some (fs.getD [] ++ (TrimSpace r.Body ++ ['\n'])) := by
  unfold addLogHandler at h ⊢
  by_cases hm : r.Method = MethodPost
  · simp only [hm, ne_eq, not_true_eq_false, if_false] at h ⊢
    by_cases hb : r.BodyErr = true
    · simp [hb, Error, StatusBadRequest, StatusCreated] at h
    · by_cases ht : TrimSpace r.Body = []
      · simp [hb, ht, Error, StatusBadRequest, StatusCreated] at h
      · by_cases ho : os.openAppendErr = true
        · simp [hb, ht, ho, Error, StatusInternalServerError, StatusCreated] at h
        · cases hw : os.writeErr with
          | none => simp [hb, ht, ho, hw]
          | some n =>
            simp [hb, ht, ho, hw, Error, StatusInternalServerError, StatusCreated] at h
  · simp [hm, Error, StatusMethodNotAllowed, StatusCreated] at h

/-- What `addLogHandler` does to the content of the log file: it puts a text at its end, the
empty text when the write puts nothing into the file and the request is not answered 201. -/
theorem addLogHandler_appends (fs : LogFile) (os : OSOutcome) (r : Request) :
    ∃ w, ((addLogHandler fs os r).2).getD [] = fs.getD [] ++ w ∧
      ((os.writeErr = none ∨ os.writeErr = some 0) →
        (addLogHandler fs os r).1.status ≠ StatusCreated → w = []) := by
  unfold addLogHandler
  by_cases hm : r.Method = MethodPost
  · simp only [hm, ne_eq, not_true_eq_false, if_false]
    by_cases hb : r.BodyErr = true
    · exact ⟨[], by simp [hb], fun _ _ => rfl⟩
    · by_cases ht : TrimSpace r.Body = []
      · exact ⟨[], by simp [hb, ht], fun _ _ => rfl⟩
      · by_cases ho : os.openAppendErr = true
        · exact ⟨[], by simp [hb, ht, ho], fun _ _ => rfl⟩
        · cases hw : os.writeErr with
          | none =>
            refine ⟨TrimSpace r.Body ++ ['\n'], by simp [hb, ht, ho], ?_⟩
            intro _ h
            simp [hb, ht, ho] at h
          | some n =>
            refine ⟨(TrimSpace r.Body ++ ['\n']).take n, by simp [hb, ht, ho], ?_⟩
            intro h0 _
            rcases h0 with h0 | h0
            · simp at h0
            · have : n = 0 := by simpa using h0
              simp [this]
  · exact ⟨[], by simp [hm], fun _ _ => rfl⟩

/-- What `addLogHandler` does to an existing log file: it extends it. -/
theorem addLogHandler_extends (c : List Char) (os : OSOutcome) (r : Request) :
    ∃ c2, (addLogHandler (some c) os r).2 = some c2 ∧ c <+: c2 := by
  unfold addLogHandler
  split
  · exact ⟨c, rfl, List.prefix_refl c⟩
  · split
    · exact ⟨c, rfl, List.prefix_refl c⟩
    · simp only
      split
      · exact ⟨c, rfl, List.prefix_refl c⟩
      · split
        · exact ⟨c, rfl, List.prefix_refl c⟩
        · split
          · exact ⟨_, rfl, by simp⟩
          · exact ⟨_, rfl, by simp⟩

/-- When the write completes, `addLogHandler` leaves no log file that exists and is empty,
if there was none before. -/
theorem addLogHandler_nonempty (fs : LogFile) (os : OSOutcome) (r : Request)
    (hfs : ∀ c, fs = some c → c ≠ []) (hw : os.writeErr = none) :
    ∀ c, (addLogHandler fs os r).2 = some c → c ≠ [] := by
  unfold addLogHandler
  by_cases hm : r.Method = MethodPost
  · simp only [hm, ne_eq, not_true_eq_false, if_false]
    by_cases hb : r.BodyErr = true
    · simpa [hb] using hfs
    · by_cases ht : TrimSpace r.Body = []
      · simpa [hb, ht] using hfs
      · by_cases ho : os.openAppendErr = true
        · simpa [hb, ht, ho] using hfs
        · intro c hc
          simp only [hb, ht, ho, hw, Bool.false_eq_true, if_false] at hc
          have := Option.some.inj hc
          rw [← this]
          simp
  · simpa [hm] using hfs

/-! ## The claims -/

/-- C3: a `POST /log` whose body is empty or white space only is answered 400 and leaves the
log file as it was (not created when absent, not modified when present), so every following
request, a `GET` among them, is answered as it would have been before. -/
theorem C3_blank_body_rejected (fs : LogFile) (os : OSOutcome) (r : Request)
    (hm : r.Method = MethodPost) (hp : r.Path = "/log")
    (hb : ∀ c ∈ r.Body, IsSpace c = true) :
    (ServeHTTP setupRoutes fs os r).1.status = 400 ∧
    (ServeHTTP setupRoutes fs os r).2 = fs ∧
    ∀ (os2 : OSOutcome) (g : Request),
      ServeHTTP setupRoutes (ServeHTTP setupRoutes fs os r).2 os2 g
        = ServeHTTP setupRoutes fs os2 g := by
  have ht : TrimSpace r.Body = [] := TrimSpace_of_all_space r.Body hb
  have h1 : (ServeHTTP setupRoutes fs os r).1.status = 400 ∧
      (ServeHTTP setupRoutes fs os r).2 = fs := by
    rw [ServeHTTP_post fs os r hm hp]
    unfold addLogHandler
    by_cases hbe : r.BodyErr = true
    · simp [hm, hbe, Error, StatusBadRequest]
    · simp [hm, hbe, ht, Error, StatusBadRequest]
  refine ⟨h1.1, h1.2, ?_⟩
  intro os2 g
  rw [h1.2]

theorem C3_blank_body_rejected_witness :
    (ServeHTTP setupRoutes (some "x\n".toList) allOk (post " \t\n")).1.status = 400 ∧
    (ServeHTTP setupRoutes (some "x\n".toList) allOk (post " \t\n")).2 = some "x\n".toList ∧
    ∀ (os2 : OSOutcome) (g : Request),
      ServeHTTP setupRoutes (ServeHTTP setupRoutes (some "x\n".toList) allOk (post " \t\n")).2 os2 g
        = ServeHTTP setupRoutes (some "x\n".toList) os2 g :=
  C3_blank_body_rejected (some "x\n".toList) allOk (post " \t\n") rfl rfl (by decide)

/-- C4 (amended): on a store without log file, when `os.Stat` reports that the file does not
exist, `GET /log` is answered 200 with `Content-Type: text/plain` and an empty body, whatever
the other system calls would do, and the log file is still absent. -/
theorem C4_get_fresh (os : OSOutcome) (r : Request)
    (hm : r.Method = MethodGet) (hp : r.Path = "/log") (hstat : os.statErr = false) :
    (ServeHTTP setupRoutes none os r).1.status = 200 ∧
    (ServeHTTP setupRoutes none os r).1.contentType = some "text/plain" ∧
    (ServeHTTP setupRoutes none os r).1.body = [] ∧
    (ServeHTTP setupRoutes none os r).2 = none := by
  rw [ServeHTTP_get none os r hm hp]
  simp [getLogHandler, hm, statNotExist, hstat, StatusOK, Response.contentType, List.lookup]

theorem C4_get_fresh_witness :
    (ServeHTTP setupRoutes none openFails get).1.status = 200 ∧
    (ServeHTTP setupRoutes none openFails get).1.contentType = some "text/plain" ∧
    (ServeHTTP setupRoutes none openFails get).1.body = [] ∧
    (ServeHTTP setupRoutes none openFails get).2 = none :=
  C4_get_fresh openFails get rfl rfl rfl

/-- C4 as stated fails when `os.Stat` fails with an error other than not-exist: the test of
`os.IsNotExist` is false, `os.Open` fails on the file that does not exist, and `GET /log` on
the store without log file is answered 500 with the error text as body. -/
theorem C4_stat_can_fail :
    (ServeHTTP setupRoutes none statFails get).1.status = 500 ∧
    (ServeHTTP setupRoutes none statFails get).1.body = "Internal server error\n".toList ∧
    (ServeHTTP setupRoutes none statFails get).1.contentType
      = some "text/plain; charset=utf-8" ∧
    (ServeHTTP setupRoutes none statFails get).2 = none := by
  decide

/-- C5: a request to `/log` whose method is neither `POST` nor `GET` is answered 405 by the
router of `setupRoutes`, and the log file is left as it was. -/
theorem C5_method_not_allowed (fs : LogFile) (os : OSOutcome) (r : Request)
    (hpost : r.Method ≠ MethodPost) (hget : r.Method ≠ MethodGet) (hp : r.Path = "/log") :
    (ServeHTTP setupRoutes fs os r).1.status = 405 ∧
    (ServeHTTP setupRoutes fs os r).2 = fs := by
  rw [ServeHTTP_log fs os r hp]
  simp [logRoute, hpost, hget, Error, StatusMethodNotAllowed]

theorem C5_method_not_allowed_witness :
    (ServeHTTP setupRoutes (some "x\n".toList) allOk
      { Method := "DELETE", Path := "/log", Body := "y".toList, BodyErr := false }).1.status = 405 ∧
    (ServeHTTP setupRoutes (some "x\n".toList) allOk
      { Method := "DELETE", Path := "/log", Body := "y".toList, BodyErr := false }).2
        = some "x\n".toList :=
  C5_method_not_allowed (some "x\n".toList) allOk
    { Method := "DELETE", Path := "/log", Body := "y".toList, BodyErr := false }
    (by decide) (by decide) rfl

/-- C6: the log is append-only. Whatever the request (method, path, body) and whatever the
system calls do, a log file that exists before the request exists after it, and its content
before is an initial segment of its content after. -/
theorem C6_append_only (c : List Char) (os : OSOutcome) (r : Request) :
    ∃ c2, (ServeHTTP setupRoutes (some c) os r).2 = some c2 ∧ c <+: c2 := by
  rcases serve_cases (some c) os r with h | h
  · rw [h]
    exact addLogHandler_extends c os r
  · exact ⟨c, h.1, List.prefix_refl c⟩

/-- C7: when the log file exists and is opened and read without error, `GET /log` is answered
200 with `Content-Type: text/plain` and the whole content of the file as body; the file is left
as it was, and a second such `GET` returns the same body. -/
theorem C7_get_existing (c : List Char) (os : OSOutcome) (r : Request)
    (hm : r.Method = MethodGet) (hp : r.Path = "/log")
    (hopen : os.openErr = false) (hcopy : os.copyErr = none) :
    (ServeHTTP setupRoutes (some c) os r).1.status = 200 ∧
    (ServeHTTP setupRoutes (some c) os r).1.contentType = some "text/plain" ∧
    (ServeHTTP setupRoutes (some c) os r).1.body = c ∧
    (ServeHTTP setupRoutes (some c) os r).2 = some c ∧
    ∀ (os2 : OSOutcome) (g : Request), g.Method = MethodGet → g.Path = "/log" →
      os2.openErr = false → os2.copyErr = none →
      (ServeHTTP setupRoutes (ServeHTTP setupRoutes (some c) os r).2 os2 g).1.body
        = (ServeHTTP setupRoutes (some c) os r).1.body := by
  have key : ∀ (os2 : OSOutcome) (g : Request), g.Method = MethodGet → g.Path = "/log" →
      os2.openErr = false → os2.copyErr = none →
      ServeHTTP setupRoutes (some c) os2 g
        = ({ header := [("Content-Type", "text/plain")], status := StatusOK, body := c },
            some c) := by
    intro os2 g h1 h2 h3 h4
    rw [ServeHTTP_get _ os2 g h1 h2]
    simp [getLogHandler, h1, statNotExist, Open, h3, h4]
  rw [key os r hm hp hopen hcopy]
  refine ⟨rfl, rfl, rfl, rfl, ?_⟩
  intro os2 g h1 h2 h3 h4
  rw [key os2 g h1 h2 h3 h4]

theorem C7_get_existing_witness :
    (ServeHTTP setupRoutes (some "hello\nworld\n".toList) allOk get).1.status = 200 ∧
    (ServeHTTP setupRoutes (some "hello\nworld\n".toList) allOk get).1.contentType
      = some "text/plain" ∧
    (ServeHTTP setupRoutes (some "hello\nworld\n".toList) allOk get).1.body
      = "hello\nworld\n".toList ∧
    (ServeHTTP setupRoutes (some "hello\nworld\n".toList) allOk get).2
      = some "hello\nworld\n".toList ∧
    (ServeHTTP setupRoutes
        (ServeHTTP setupRoutes (some "hello\nworld\n".toList) allOk get).2 allOk get).1.body
      = (ServeHTTP setupRoutes (some "hello\nworld\n".toList) allOk get).1.body :=
  have h := C7_get_existing "hello\nworld\n".toList allOk get rfl rfl rfl rfl
  ⟨h.1, h.2.1, h.2.2.1, h.2.2.2.1, h.2.2.2.2 allOk get rfl rfl rfl rfl⟩

/-- C8: the status of `POST /log`. It is 400 exactly when the body cannot be read or its trimmed
form is empty, whatever the storage would do; otherwise it is 500 exactly when opening the log
file or writing to it fails; otherwise it is 201 and the response body is `OK`. When opening
the log file fails, the log file is left as it was. -/
theorem C8_post_status (fs : LogFile) (os : OSOutcome) (r : Request)
    (hm : r.Method = MethodPost) (hp : r.Path = "/log") :
    ((ServeHTTP setupRoutes fs os r).1.status = 400 ↔
      (r.BodyErr = true ∨ TrimSpace r.Body = [])) ∧
    (¬ (r.BodyErr = true ∨ TrimSpace r.Body = []) →
      ((ServeHTTP setupRoutes fs os r).1.status = 500 ↔
        (os.openAppendErr = true ∨ os.writeErr ≠ none))) ∧
    (¬ (r.BodyErr = true ∨ TrimSpace r.Body = []) →
      ¬ (os.openAppendErr = true ∨ os.writeErr ≠ none) →
      (ServeHTTP setupRoutes fs os r).1.status = 201 ∧
      (ServeHTTP setupRoutes fs os r).1.body = "OK".toList) ∧
    (os.openAppendErr = true → (ServeHTTP setupRoutes fs os r).2 = fs) := by
  rw [ServeHTTP_post fs os r hm hp]
  unfold addLogHandler
  simp only [hm, ne_eq, not_true_eq_false, if_false]
  by_cases hb : r.BodyErr = true
  · simp [hb, Error, StatusBadRequest]
  · by_cases ht : TrimSpace r.Body = []
    · simp [hb, ht, Error, StatusBadRequest]
    · by_cases ho : os.openAppendErr = true
      · simp [hb, ht, ho, Error, StatusInternalServerError]
      · cases hw : os.writeErr with
        | none => simp [hb, ht, ho, StatusCreated]
        | some n => simp [hb, ht, ho, Error, StatusInternalServerError]

theorem C8_post_status_witness :
    ((ServeHTTP setupRoutes none allOk (post "hello")).1.status = 201 ∧
      (ServeHTTP setupRoutes none allOk (post "hello")).1.body = "OK".toList) ∧
    ((ServeHTTP setupRoutes none (writeFails 3) (post "hello")).1.status = 500) ∧
    ((ServeHTTP setupRoutes none (writeFails 3) (post " ")).1.status = 400) :=
  ⟨(C8_post_status none allOk (post "hello") rfl rfl).2.2.1 (by decide) (by decide),
    ((C8_post_status none (writeFails 3) (post "hello") rfl rfl).2.1 (by decide)).mpr
      (Or.inr (by decide)),
    (C8_post_status none (writeFails 3) (post " ") rfl rfl).1.mpr (Or.inr (by decide))⟩

/-! ## Facts about sequences of requests -/

/-- A `GET /log` whose system calls do not fail is answered 200 with the content of the log
file, the empty text when there is no file. -/
theorem get_ok (fs : LogFile) (os : OSOutcome) (g : Request)
    (hm : g.Method = MethodGet) (hp : g.Path = "/log")
    (hstat : fs = none → os.statErr = false)
    (hopen : os.openErr = false) (hcopy : os.copyErr = none) :
    (ServeHTTP setupRoutes fs os g).1.status = 200 ∧
    (ServeHTTP setupRoutes fs os g).1.body = fs.getD [] := by
  rw [ServeHTTP_get fs os g hm hp]
  cases fs with
  | none => simp [getLogHandler, hm, statNotExist, hstat rfl, StatusOK]
  | some c => simp [getLogHandler, hm, statNotExist, Open, hopen, hcopy, StatusOK]

/-- Every request puts a text at the end of the content of the log file, the empty text when
its write puts nothing into the file and it is not answered 201. -/
theorem serve_appends (fs : LogFile) (os : OSOutcome) (r : Request) :
    ∃ w, ((ServeHTTP setupRoutes fs os r).2).getD [] = fs.getD [] ++ w ∧
      ((os.writeErr = none ∨ os.writeErr = some 0) →
        (ServeHTTP setupRoutes fs os r).1.status ≠ StatusCreated → w = []) := by
  rcases serve_cases fs os r with h | h
  · rw [h]
    exact addLogHandler_appends fs os r
  · exact ⟨[], by rw [h.1]; simp, fun _ _ => rfl⟩

/-- Only `addLogHandler` answers 201, and then the trimmed body is not empty and the log file
afterwards is the log file before followed by the trimmed body and a newline. -/
theorem status_created (fs : LogFile) (os : OSOutcome) (r : Request)
    (h : (ServeHTTP setupRoutes fs os r).1.status = StatusCreated) :
    TrimSpace r.Body ≠ [] ∧
    (ServeHTTP setupRoutes fs os r).2 = some (fs.getD [] ++ (TrimSpace r.Body ++ ['\n'])) := by
  rcases serve_cases fs os r with h1 | h1
  · rw [h1] at h ⊢
    exact addLogHandler_created fs os r h
  · exact absurd h h1.2

/-- A request that is not answered 201 and whose write, if any, puts nothing into the file
leaves the content of the log file as it was. -/
theorem status_not_created (fs : LogFile) (os : OSOutcome) (r : Request)
    (hw : os.writeErr = none ∨ os.writeErr = some 0)
    (h : (ServeHTTP setupRoutes fs os r).1.status ≠ StatusCreated) :
    ((ServeHTTP setupRoutes fs os r).2).getD [] = fs.getD [] := by
  obtain ⟨w, h1, h2⟩ := serve_appends fs os r
  rw [h1, h2 hw h]
  simp

/-- The content of the log file after a sequence of requests without partial write: the content
before followed by the accepted records, each with its newline. -/
theorem serveAll_content (steps : List (Request × OSOutcome)) (fs : LogFile)
    (hw : ∀ s ∈ steps, s.2.writeErr = none ∨ s.2.writeErr = some 0) :
    ((serveAll fs steps).2).getD [] = fs.getD [] ++ logText (accepted fs steps) := by
  induction steps generalizing fs with
  | nil => simp [serveAll, accepted, logText]
  | cons s rest ih =>
    obtain ⟨r, os⟩ := s
    have hrest : ∀ s ∈ rest, s.2.writeErr = none ∨ s.2.writeErr = some 0 :=
      fun s hs => hw s (List.mem_cons_of_mem _ hs)
    have hos : os.writeErr = none ∨ os.writeErr = some 0 := hw (r, os) (List.mem_cons_self _ _)
    simp only [serveAll, accepted]
    rw [ih _ hrest]
    by_cases h : (ServeHTTP setupRoutes fs os r).1.status = StatusCreated
    · rw [if_pos h, (status_created fs os r h).2]
      simp [logText]
    · rw [if_neg h, status_not_created fs os r hos h]

/-- The accepted records are those of the responses with status 201: there is none exactly when
no response has status 201. -/
theorem accepted_eq_nil_iff (steps : List (Request × OSOutcome)) (fs : LogFile) :
    accepted fs steps = [] ↔ ∀ w ∈ (serveAll fs steps).1, w.status ≠ 201 := by
  induction steps generalizing fs with
  | nil => simp [serveAll, accepted]
  | cons s rest ih =>
    obtain ⟨r, os⟩ := s
    simp only [serveAll, accepted]
    by_cases h : (ServeHTTP setupRoutes fs os r).1.status = StatusCreated
    · rw [if_pos h]
      simp only [List.cons_ne_nil, false_iff]
      intro hall
      exact hall _ (List.mem_cons_self _ _) h
    · rw [if_neg h, ih]
      constructor
      · intro hall w hwm
        rcases List.mem_cons.mp hwm with rfl | hwm
        · exact h
        · exact hall w hwm
      · intro hall w hwm
        exact hall w (List.mem_cons_of_mem _ hwm)

/-- Every accepted record is a trimmed body, so it is not empty and has no white space at its
start. -/
theorem accepted_records (steps : List (Request × OSOutcome)) (fs : LogFile) :
    ∀ record ∈ accepted fs steps, ∃ a t, record = a :: t ∧ IsSpace a = false := by
  induction steps generalizing fs with
  | nil => simp [accepted]
  | cons s rest ih =>
    obtain ⟨r, os⟩ := s
    simp only [accepted]
    by_cases h : (ServeHTTP setupRoutes fs os r).1.status = StatusCreated
    · rw [if_pos h]
      intro record hrec
      rcases List.mem_cons.mp hrec with rfl | hrec
      · cases ht : TrimSpace r.Body with
        | nil => exact absurd ht (status_created fs os r h).1
        | cons a t => exact ⟨a, t, rfl, TrimSpace_head_not_space r.Body a t ht⟩
      · exact ih _ record hrec
    · rw [if_neg h]
      exact ih _

/-- The content of the log file after a sequence of requests that are all answered 201: the
content before followed by the trimmed bodies, each with its newline. -/
theorem serveAll_all_created (steps : List (Request × OSOutcome)) (fs : LogFile)
    (hok : ∀ w ∈ (serveAll fs steps).1, w.status = 201) :
    ((serveAll fs steps).2).getD []
      = fs.getD [] ++ logText (steps.map (fun s => TrimSpace s.1.Body)) := by
  induction steps generalizing fs with
  | nil => simp [serveAll, logText]
  | cons s rest ih =>
    obtain ⟨r, os⟩ := s
    simp only [serveAll] at hok ⊢
    have h : (ServeHTTP setupRoutes fs os r).1.status = StatusCreated :=
      hok _ (List.mem_cons_self _ _)
    rw [ih _ (fun w hwm => hok w (List.mem_cons_of_mem _ hwm)), (status_created fs os r h).2]
    simp [logText]

/-- When every write completes, a log file that exists is not empty, provided this holds before
the requests. -/
theorem serveAll_nonempty (steps : List (Request × OSOutcome)) (fs : LogFile)
    (hfs : ∀ c, fs = some c → c ≠ [])
    (hw : ∀ s ∈ steps, s.2.writeErr = none) :
    ∀ c, (serveAll fs steps).2 = some c → c ≠ [] := by
  induction steps generalizing fs with
  | nil => simpa [serveAll] using hfs
  | cons s rest ih =>
    obtain ⟨r, os⟩ := s
    have hos : os.writeErr = none := hw (r, os) (List.mem_cons_self _ _)
    simp only [serveAll]
    apply ih _ _ (fun s hs => hw s (List.mem_cons_of_mem _ hs))
    rcases serve_cases fs os r with h | h
    · rw [h]
      exact addLogHandler_nonempty fs os r hfs hos
    · rw [h.1]
      exact hfs

/-- A log file that exists still exists after any request. -/
theorem serve_some (c : List Char) (os : OSOutcome) (r : Request) :
    ∃ c2, (ServeHTTP setupRoutes (some c) os r).2 = some c2 := by
  rcases serve_cases (some c) os r with h | h
  · rw [h]
    obtain ⟨c2, h2, _⟩ := addLogHandler_extends c os r
    exact ⟨c2, h2⟩
  · exact ⟨c, h.1⟩

/-- A log file that exists still exists after any sequence of requests. -/
theorem serveAll_some (steps : List (Request × OSOutcome)) (c : List Char) :
    (serveAll (some c) steps).2 ≠ none := by
  induction steps generalizing c with
  | nil => simp [serveAll]
  | cons s rest ih =>
    obtain ⟨r, os⟩ := s
    simp only [serveAll]
    obtain ⟨c2, h2⟩ := serve_some c os r
    rw [h2]
    exact ih c2

/-- When there is no log file after the requests, no record has been written. -/
theorem lineRecords_eq_nil_of_none (steps : List (Request × OSOutcome)) (fs : LogFile)
    (h : (serveAll fs steps).2 = none) : lineRecords fs steps = [] := by
  induction steps generalizing fs with
  | nil => rfl
  | cons s rest ih =>
    obtain ⟨r, os⟩ := s
    simp only [serveAll] at h
    simp only [lineRecords]
    have hne : (ServeHTTP setupRoutes fs os r).1.status ≠ StatusCreated := by
      intro h201
      rw [(status_created fs os r h201).2] at h
      exact serveAll_some rest _ h
    rw [if_neg (fun hgood => hne hgood.1)]
    exact ih _ h

/-- A request that leaves an empty log file where there was none, or none that was empty, is
answered 500. -/
theorem status_of_empty_file (fs : LogFile) (os : OSOutcome) (r : Request)
    (hfs : ∀ c, fs = some c → c ≠ [])
    (h : (ServeHTTP setupRoutes fs os r).2 = some []) :
    (ServeHTTP setupRoutes fs os r).1.status = 500 := by
  rcases serve_cases fs os r with h1 | h1
  · rw [h1] at h ⊢
    unfold addLogHandler at h ⊢
    by_cases hm : r.Method = MethodPost
    · simp only [hm, ne_eq, not_true_eq_false, if_false] at h ⊢
      by_cases hb : r.BodyErr = true
      · simp only [hb, if_true] at h
        exact absurd rfl (hfs [] h)
      · by_cases ht : TrimSpace r.Body = []
        · simp only [hb, ht, if_true, Bool.false_eq_true, if_false] at h
          exact absurd rfl (hfs [] h)
        · by_cases ho : os.openAppendErr = true
          · simp only [hb, ht, ho, if_true, Bool.false_eq_true, if_false] at h
            exact absurd rfl (hfs [] h)
          · cases hw : os.writeErr with
            | none => simp [hb, ht, ho, hw] at h
            | some n => simp [hb, ht, ho, Error, StatusInternalServerError]
    · simp only [hm, ne_eq, not_false_eq_true, if_true] at h
      exact absurd rfl (hfs [] h)
  · rw [h1.1] at h
    exact absurd rfl (hfs [] h)

/-- A log file that exists and is empty after the requests, where before there was none or one
that was not empty, comes from a request answered 500. -/
theorem serveAll_empty_file (steps : List (Request × OSOutcome)) (fs : LogFile)
    (hfs : ∀ c, fs = some c → c ≠ [])
    (h : (serveAll fs steps).2 = some []) :
    ∃ w ∈ (serveAll fs steps).1, w.status = 500 := by
  induction steps generalizing fs with
  | nil =>
    simp only [serveAll] at h
    exact absurd rfl (hfs [] h)
  | cons s rest ih =>
    obtain ⟨r, os⟩ := s
    simp only [serveAll] at h ⊢
    by_cases hemp : (ServeHTTP setupRoutes fs os r).2 = some []
    · exact ⟨_, List.mem_cons_self _ _, status_of_empty_file fs os r hfs hemp⟩
    · have hfs2 : ∀ c, (ServeHTTP setupRoutes fs os r).2 = some c → c ≠ [] := by
        intro c hc hnil
        exact hemp (by rw [hc, hnil])
      obtain ⟨w, hw, hst⟩ := ih _ hfs2 h
      exact ⟨w, List.mem_cons_of_mem _ hw, hst⟩

theorem lineRecords_append (before rest : List (Request × OSOutcome)) (fs : LogFile) :
    lineRecords fs (before ++ rest)
      = lineRecords fs before ++ lineRecords (serveAll fs before).2 rest := by
  induction before generalizing fs with
  | nil => rfl
  | cons s before ih =>
    obtain ⟨r, os⟩ := s
    simp only [List.cons_append, lineRecords, serveAll, List.append_eq]
    rw [ih]
    split
    · rfl
    · rfl

/-! ## Facts about the lines of a text -/

theorem SplitLines_nil : SplitLines [] = [[]] := rfl

/-- The lines of a text around one of its newlines. -/
theorem SplitLines_append_cons (s t : List Char) :
    SplitLines (s ++ '\n' :: t) = SplitLines s ++ SplitLines t := by
  unfold SplitLines List.splitOn
  induction s with
  | nil =>
    rw [List.nil_append, List.splitOnP_cons, List.splitOnP_nil]
    simp
  | cons a u ih =>
    rw [List.cons_append, List.splitOnP_cons, List.splitOnP_cons, ih]
    by_cases ha : (a == '\n') = true
    · simp [ha]
    · simp only [ha, if_false]
      cases hu : List.splitOnP (fun x => x == '\n') u with
      | nil => exact absurd hu (List.splitOnP_ne_nil _ u)
      | cons x xs => rfl

/-- A text without newline is one line. -/
theorem SplitLines_of_not_mem (s : List Char) (h : '\n' ∉ s) : SplitLines s = [s] := by
  unfold SplitLines List.splitOn
  apply List.splitOnP_eq_single
  intro x hx hxe
  have : x = '\n' := by simpa using hxe
  exact h (this ▸ hx)

/-- A text of records is empty only when there is no record. -/
theorem logText_eq_nil_iff (records : List (List Char)) : logText records = [] ↔ records = [] := by
  cases records with
  | nil => simp [logText]
  | cons record rest => simp [logText]

/-- A text of records that is not empty ends with a newline. -/
theorem logText_ends_with_newline (records : List (List Char)) (h : records ≠ []) :
    ∃ p, logText records = p ++ ['\n'] := by
  induction records with
  | nil => exact absurd rfl h
  | cons record rest ih =>
    by_cases hr : rest = []
    · subst hr
      exact ⟨record, by simp [logText]⟩
    · obtain ⟨p, hp⟩ := ih hr
      refine ⟨record ++ ['\n'] ++ p, ?_⟩
      have : logText (record :: rest) = record ++ ['\n'] ++ logText rest := by simp [logText]
      rw [this, hp]
      simp

/-- Every text is a part that is empty or ended by a newline, followed by a last piece without
newline. -/
theorem exists_last_piece (x : List Char) :
    ∃ p t, x = p ++ t ∧ (p = [] ∨ ∃ q, p = q ++ ['\n']) ∧ '\n' ∉ t := by
  induction x using List.reverseRecOn with
  | nil => exact ⟨[], [], rfl, Or.inl rfl, by simp⟩
  | append_singleton xs a ih =>
    by_cases ha : a = '\n'
    · subst ha
      exact ⟨xs ++ ['\n'], [], by simp, Or.inr ⟨xs, rfl⟩, by simp⟩
    · obtain ⟨p, t, hx, hp, ht⟩ := ih
      refine ⟨p, t ++ [a], by rw [hx, List.append_assoc], hp, ?_⟩
      intro hmem
      rcases List.mem_append.mp hmem with h | h
      · exact ht h
      · exact ha (List.mem_singleton.mp h).symm

/-- The lines of a text that comes after a part that is empty or ended by a newline are lines
of the whole, in their order. -/
theorem SplitLines_sublist_append (p x : List Char) (hp : p = [] ∨ ∃ q, p = q ++ ['\n']) :
    List.Sublist (SplitLines x) (SplitLines (p ++ x)) := by
  rcases hp with rfl | ⟨q, rfl⟩
  · exact List.Sublist.refl _
  · rw [List.append_assoc, show ['\n'] ++ x = '\n' :: x from rfl, SplitLines_append_cons]
    exact List.sublist_append_right _ _

/-- A text whose last piece is not empty is neither empty nor ended by a newline. -/
theorem last_piece_eq_nil (p t : List Char) (ht : '\n' ∉ t)
    (h : p ++ t = [] ∨ (p ++ t).getLast? = some '\n') : t = [] := by
  cases t using List.reverseRecOn with
  | nil => rfl
  | append_singleton u a =>
    exfalso
    rcases h with h | h
    · simp at h
    · rw [← List.append_assoc, List.getLast?_concat] at h
      have : a = '\n' := Option.some.inj h
      exact ht (by simp [this])

/-- The records that are lines are lines of the content of the log file after the requests, in
their order, and after the lines that were complete before. -/
theorem lineRecords_sublist (steps : List (Request × OSOutcome)) (fs : LogFile)
    (p t : List Char) (hc : fs.getD [] = p ++ t) (hp : p = [] ∨ ∃ q, p = q ++ ['\n'])
    (ht : '\n' ∉ t) :
    ∃ w, ((serveAll fs steps).2).getD [] = fs.getD [] ++ w ∧
      List.Sublist (lineRecords fs steps) (SplitLines (t ++ w)) := by
  induction steps generalizing fs p t with
  | nil => exact ⟨[], by simp [serveAll], by simp [lineRecords]⟩
  | cons s rest ih =>
    obtain ⟨r, os⟩ := s
    simp only [serveAll, lineRecords]
    by_cases hgood : (ServeHTTP setupRoutes fs os r).1.status = StatusCreated ∧
        '\n' ∉ TrimSpace r.Body ∧ (fs.getD [] = [] ∨ (fs.getD []).getLast? = some '\n')
    · rw [if_pos hgood]
      obtain ⟨h201, hnl, hline⟩ := hgood
      have hstate := (status_created fs os r h201).2
      have ht0 : t = [] := last_piece_eq_nil p t ht (by rw [← hc]; exact hline)
      have hc2 : ((ServeHTTP setupRoutes fs os r).2).getD []
          = (fs.getD [] ++ TrimSpace r.Body ++ ['\n']) ++ [] := by
        rw [hstate]
        simp
      obtain ⟨w2, hw2, hsub⟩ := ih (ServeHTTP setupRoutes fs os r).2
        (fs.getD [] ++ TrimSpace r.Body ++ ['\n']) [] hc2 (Or.inr ⟨_, rfl⟩) (by simp)
      refine ⟨TrimSpace r.Body ++ '\n' :: w2, ?_, ?_⟩
      · rw [hw2, hstate]
        simp
      · rw [ht0, List.nil_append, SplitLines_append_cons, SplitLines_of_not_mem _ hnl]
        rw [List.nil_append] at hsub
        exact List.Sublist.cons₂ _ hsub
    · rw [if_neg hgood]
      obtain ⟨w, hw, _⟩ := serve_appends fs os r
      obtain ⟨p2, t2, hx, hp2, ht2⟩ := exists_last_piece (t ++ w)
      have hc2 : ((ServeHTTP setupRoutes fs os r).2).getD [] = (p ++ p2) ++ t2 := by
        rw [hw, hc, List.append_assoc, hx, List.append_assoc]
      have hpp : p ++ p2 = [] ∨ ∃ q, p ++ p2 = q ++ ['\n'] := by
        rcases hp2 with rfl | ⟨q2, rfl⟩
        · simpa using hp
        · exact Or.inr ⟨p ++ q2, by simp⟩
      obtain ⟨w2, hw2, hsub⟩ := ih (ServeHTTP setupRoutes fs os r).2 (p ++ p2) t2 hc2 hpp ht2
      refine ⟨w ++ w2, ?_, ?_⟩
      · rw [hw2, hw, List.append_assoc]
      · rw [← List.append_assoc, hx, List.append_assoc]
        exact hsub.trans (SplitLines_sublist_append p2 (t2 ++ w2) hp2)

/-! ## The claims about sequences of requests -/

/-- The answer to a `POST /log` depends on the body through its trimmed form only. -/
theorem post_congr (fs : LogFile) (os : OSOutcome) (b1 b2 : List Char) (e : Bool)
    (h : TrimSpace b1 = TrimSpace b2) :
    ServeHTTP setupRoutes fs os { Method := MethodPost, Path := "/log", Body := b1, BodyErr := e }
      = ServeHTTP setupRoutes fs os
          { Method := MethodPost, Path := "/log", Body := b2, BodyErr := e } := by
  rw [ServeHTTP_post fs os _ rfl rfl, ServeHTTP_post fs os _ rfl rfl]
  simp only [addLogHandler, h]

/-- C1 (amended): round trip. From a store without log file, after `POST /log` requests with
bodies `b1..bn` whose trimmed forms are not empty and which are answered 201 one after the
other, a following `GET /log` whose system calls do not fail (`os.Stat` reports a file that
does not exist as such, `os.Open` and `io.Copy` succeed) is answered 200 with the body
`trim(b1) ++ "\n" ++ ... ++ trim(bn) ++ "\n"`. -/
theorem C1_round_trip (steps : List (Request × OSOutcome)) (os : OSOutcome) (g : Request)
    (hpost : ∀ s ∈ steps, s.1.Method = MethodPost ∧ s.1.Path = "/log")
    (hne : ∀ s ∈ steps, TrimSpace s.1.Body ≠ [])
    (hok : ∀ w ∈ (serveAll none steps).1, w.status = 201)
    (hm : g.Method = MethodGet) (hp : g.Path = "/log")
    (hstat : (serveAll none steps).2 = none → os.statErr = false)
    (hopen : os.openErr = false) (hcopy : os.copyErr = none) :
    (ServeHTTP setupRoutes (serveAll none steps).2 os g).1.status = 200 ∧
    (ServeHTTP setupRoutes (serveAll none steps).2 os g).1.body
      = logText (steps.map (fun s => TrimSpace s.1.Body)) := by
  have _h1 := hpost
  have _h2 := hne
  have hg := get_ok (serveAll none steps).2 os g hm hp hstat hopen hcopy
  refine ⟨hg.1, ?_⟩
  rw [hg.2, serveAll_all_created steps none hok]
  rfl

theorem C1_round_trip_witness :
    (serveAll none [(post "hello", allOk), (post "world", allOk)]).1.map
        (fun w => (w.status, w.body)) = [(201, "OK".toList), (201, "OK".toList)] ∧
    (ServeHTTP setupRoutes (serveAll none [(post "hello", allOk), (post "world", allOk)]).2
      allOk get).1.status = 200 ∧
    (ServeHTTP setupRoutes (serveAll none [(post "hello", allOk), (post "world", allOk)]).2
      allOk get).1.body = "hello\nworld\n".toList :=
  ⟨by decide,
    C1_round_trip [(post "hello", allOk), (post "world", allOk)] allOk get
      (by decide) (by decide) (by decide) rfl rfl (fun _ => rfl) rfl rfl⟩

/-- C1 as stated fails when a system call of the `GET` fails: after `POST "hello"` answered
201, a `GET /log` whose `os.Open` fails is answered 500, and one whose `io.Copy` fails
after two characters has the body `he`; after no request at all, a `GET /log` whose `os.Stat`
fails with an error other than not-exist is answered 500. -/
theorem C1_get_can_fail :
    (TrimSpace (post "hello").Body ≠ []) ∧
    (∀ w ∈ (serveAll none [(post "hello", allOk)]).1, w.status = 201) ∧
    (ServeHTTP setupRoutes (serveAll none [(post "hello", allOk)]).2 openFails get).1.status
      = 500 ∧
    (ServeHTTP setupRoutes (serveAll none [(post "hello", allOk)]).2 (copyFails 2) get).1.body
      = "he".toList ∧
    logText [TrimSpace (post "hello").Body] = "hello\n".toList ∧
    (ServeHTTP setupRoutes (serveAll none []).2 statFails get).1.status = 500 := by
  decide

/-- C2 (amended): whatever the log file before and whatever the requests, the trimmed body of a
request answered 201 that contains no newline and is appended to a log file that is absent,
empty or ended by a newline is one of the lines of the body of every later `GET /log` that
opens and reads the log file, the body being split at newlines; and these records are lines of
that body in the order of their requests. -/
theorem C2_lines_in_order (fs : LogFile) (steps : List (Request × OSOutcome))
    (os : OSOutcome) (g : Request)
    (hm : g.Method = MethodGet) (hp : g.Path = "/log")
    (hopen : os.openErr = false) (hcopy : os.copyErr = none) :
    (∀ (before : List (Request × OSOutcome)) (r : Request) (osr : OSOutcome)
        (after : List (Request × OSOutcome)),
      steps = before ++ (r, osr) :: after →
      (ServeHTTP setupRoutes (serveAll fs before).2 osr r).1.status = 201 →
      '\n' ∉ TrimSpace r.Body →
      (((serveAll fs before).2).getD [] = [] ∨
        (((serveAll fs before).2).getD []).getLast? = some '\n') →
      TrimSpace r.Body ∈ SplitLines (ServeHTTP setupRoutes (serveAll fs steps).2 os g).1.body) ∧
    List.Sublist (lineRecords fs steps)
      (SplitLines (ServeHTTP setupRoutes (serveAll fs steps).2 os g).1.body) := by
  have hsub : List.Sublist (lineRecords fs steps)
      (SplitLines (ServeHTTP setupRoutes (serveAll fs steps).2 os g).1.body) := by
    by_cases hfin : (serveAll fs steps).2 = none
    · rw [lineRecords_eq_nil_of_none steps fs hfin]
      exact List.nil_sublist _
    · have hbody := (get_ok (serveAll fs steps).2 os g hm hp
        (fun h => absurd h hfin) hopen hcopy).2
      obtain ⟨p, t, hx, hpt, ht⟩ := exists_last_piece (fs.getD [])
      obtain ⟨w, hw, hs⟩ := lineRecords_sublist steps fs p t hx hpt ht
      rw [hbody, hw, hx, List.append_assoc]
      exact hs.trans (SplitLines_sublist_append p (t ++ w) hpt)
  refine ⟨?_, hsub⟩
  intro before r osr after hsteps h201 hnl hline
  apply hsub.subset
  rw [hsteps, lineRecords_append]
  apply List.mem_append_right
  have hgood : (ServeHTTP setupRoutes (serveAll fs before).2 osr r).1.status = StatusCreated ∧
      '\n' ∉ TrimSpace r.Body ∧ (((serveAll fs before).2).getD [] = [] ∨
        (((serveAll fs before).2).getD []).getLast? = some '\n') := ⟨h201, hnl, hline⟩
  simp only [lineRecords, if_pos hgood]
  exact List.mem_cons_self _ _

theorem C2_lines_in_order_witness :
    "x".toList ∈ SplitLines (ServeHTTP setupRoutes
        (serveAll none [(post "a\nb", allOk), (post " x ", allOk), (post "y", allOk)]).2
        allOk get).1.body ∧
    List.Sublist ["x".toList, "y".toList] (SplitLines (ServeHTTP setupRoutes
        (serveAll none [(post "a\nb", allOk), (post " x ", allOk), (post "y", allOk)]).2
        allOk get).1.body) ∧
    SplitLines (ServeHTTP setupRoutes
        (serveAll none [(post "a\nb", allOk), (post " x ", allOk), (post "y", allOk)]).2
        allOk get).1.body = ["a".toList, "b".toList, "x".toList, "y".toList, []] :=
  have h := C2_lines_in_order none
    [(post "a\nb", allOk), (post " x ", allOk), (post "y", allOk)]
    allOk get rfl rfl rfl rfl
  have e : lineRecords none [(post "a\nb", allOk), (post " x ", allOk), (post "y", allOk)]
      = ["x".toList, "y".toList] := by decide
  ⟨h.1 [(post "a\nb", allOk)] (post " x ") allOk [(post "y", allOk)] rfl (by decide)
      (by decide) (by decide),
    e ▸ h.2, by decide⟩

/-- C2 as stated fails in four ways. A body with white space around it is answered 201 and is
stored trimmed, so the body itself is no line of the log; a body with a newline inside is
answered 201 and takes two lines; a record written after a write that failed in part shares its
line with the part written; and a `GET` that cannot open the log file returns the error text. -/
theorem C2_input_not_a_line :
    ((ServeHTTP setupRoutes none allOk (post " a")).1.status = 201 ∧
      " a".toList ∉ SplitLines (ServeHTTP setupRoutes
        (ServeHTTP setupRoutes none allOk (post " a")).2 allOk get).1.body) ∧
    ((ServeHTTP setupRoutes none allOk (post "a\nb")).1.status = 201 ∧
      "a\nb".toList ∉ SplitLines (ServeHTTP setupRoutes
        (ServeHTTP setupRoutes none allOk (post "a\nb")).2 allOk get).1.body) ∧
    ((serveAll none [(post "ab", writeFails 1), (post "x", allOk)]).1.map (fun w => w.status)
        = [500, 201] ∧
      SplitLines (ServeHTTP setupRoutes
        (serveAll none [(post "ab", writeFails 1), (post "x", allOk)]).2 allOk get).1.body
        = ["ax".toList, []]) ∧
    ((ServeHTTP setupRoutes none allOk (post "a")).1.status = 201 ∧
      SplitLines (ServeHTTP setupRoutes
        (ServeHTTP setupRoutes none allOk (post "a")).2 openFails get).1.body
        = ["Internal server error".toList, []]) := by
  decide

/-- C9 (amended): in every state reached from a store without log file by requests each of
whose writes completes or puts nothing into the file, the log file, if it exists and is not
empty, ends with a newline and does not start with white space; it exists and is empty only
after a request answered 500, and it is never empty when all writes complete; and a `GET /log`
whose system calls do not fail (`os.Stat` reports a file that does not exist as such, `os.Open`
and `io.Copy` succeed) returns an empty body exactly when no request has been answered 201. -/
theorem C9_reachable_invariant (steps : List (Request × OSOutcome))
    (hw : ∀ s ∈ steps, s.2.writeErr = none ∨ s.2.writeErr = some 0) :
    (∀ c, (serveAll none steps).2 = some c → c ≠ [] →
      c.getLast? = some '\n' ∧ ∃ a t, c = a :: t ∧ IsSpace a = false) ∧
    ((∀ s ∈ steps, s.2.writeErr = none) → ∀ c, (serveAll none steps).2 = some c → c ≠ []) ∧
    ((serveAll none steps).2 = some [] → ∃ w ∈ (serveAll none steps).1, w.status = 500) ∧
    (∀ (os : OSOutcome) (g : Request), g.Method = MethodGet → g.Path = "/log" →
      ((serveAll none steps).2 = none → os.statErr = false) →
      os.openErr = false → os.copyErr = none →
      ((ServeHTTP setupRoutes (serveAll none steps).2 os g).1.body = [] ↔
        ∀ w ∈ (serveAll none steps).1, w.status ≠ 201)) := by
  have hcontent : ((serveAll none steps).2).getD [] = logText (accepted none steps) := by
    rw [serveAll_content steps none hw]
    rfl
  refine ⟨?_, ?_, ?_, ?_⟩
  · intro c hc hne
    rw [hc] at hcontent
    have hc2 : c = logText (accepted none steps) := hcontent
    have hacc : accepted none steps ≠ [] := by
      intro h
      rw [h] at hc2
      exact hne hc2
    constructor
    · obtain ⟨p, hp⟩ := logText_ends_with_newline _ hacc
      rw [hc2, hp]
      simp
    · cases hl : accepted none steps with
      | nil => exact absurd hl hacc
      | cons record rest =>
        obtain ⟨a, t, hrec, ha⟩ :=
          accepted_records steps none record (by rw [hl]; exact List.mem_cons_self _ _)
        refine ⟨a, t ++ ['\n'] ++ logText rest, ?_, ha⟩
        rw [hc2, hl, hrec]
        simp [logText]
  · intro hall
    exact serveAll_nonempty steps none (by simp) hall
  · intro hemp
    exact serveAll_empty_file steps none (by simp) hemp
  · intro os g hm hp hstat hopen hcopy
    rw [(get_ok _ os g hm hp hstat hopen hcopy).2, hcontent, logText_eq_nil_iff,
      accepted_eq_nil_iff]

theorem C9_reachable_invariant_witness :
    ((serveAll none [(post "a", writeFails 0), (post " b", allOk), (get, allOk)]).2
        = some "b\n".toList) ∧
    ("b\n".toList.getLast? = some '\n' ∧
      ∃ a t, "b\n".toList = a :: t ∧ IsSpace a = false) ∧
    ((ServeHTTP setupRoutes
        (serveAll none [(post "a", writeFails 0), (post " b", allOk), (get, allOk)]).2
        allOk get).1.body = [] ↔
      ∀ w ∈ (serveAll none [(post "a", writeFails 0), (post " b", allOk), (get, allOk)]).1,
        w.status ≠ 201) :=
  have h := C9_reachable_invariant [(post "a", writeFails 0), (post " b", allOk), (get, allOk)]
    (by decide)
  ⟨by decide, h.1 "b\n".toList (by decide) (by decide), h.2.2.2 allOk get rfl rfl (fun _ => rfl) rfl rfl⟩

/-- C9 as stated fails. With `os.OpenFile` creating the log file and the write of
`fmt.Fprintf` failing before any character, the only write does not occur, the request is
answered 500, and the log file exists and is empty. No `POST` has succeeded then, yet a
`GET /log` that cannot open the log file has a body that is not empty, as has, on the store
without log file, a `GET /log` whose `os.Stat` fails with an error other than not-exist. -/
theorem C9_empty_file_reachable :
    (∀ s ∈ [(post "a", writeFails 0)], s.2.writeErr = none ∨ s.2.writeErr = some 0) ∧
    (serveAll none [(post "a", writeFails 0)]).1.map (fun w => w.status) = [500] ∧
    (serveAll none [(post "a", writeFails 0)]).2 = some [] ∧
    (ServeHTTP setupRoutes (serveAll none [(post "a", writeFails 0)]).2 openFails get).1.body
      = "Internal server error\n".toList ∧
    (ServeHTTP setupRoutes (serveAll none []).2 statFails get).1.body
      = "Internal server error\n".toList := by
  decide

/-- C10: `POST /log` does not see white space around the body. For every body `b`, log file and
outcome of the system calls, the request with body `b` and the request with body
`TrimSpace b` get the same status and leave the same log file; white space put before and after
`b` changes neither; and the record a request answered 201 has put at the end of the log file
is equal to its own trimmed form. -/
theorem C10_trim_insensitive (fs : LogFile) (os : OSOutcome) (b : List Char) (e : Bool) :
    ((ServeHTTP setupRoutes fs os
        { Method := MethodPost, Path := "/log", Body := TrimSpace b, BodyErr := e }).1.status
      = (ServeHTTP setupRoutes fs os
        { Method := MethodPost, Path := "/log", Body := b, BodyErr := e }).1.status) ∧
    ((ServeHTTP setupRoutes fs os
        { Method := MethodPost, Path := "/log", Body := TrimSpace b, BodyErr := e }).2
      = (ServeHTTP setupRoutes fs os
        { Method := MethodPost, Path := "/log", Body := b, BodyErr := e }).2) ∧
    (∀ l t : List Char, (∀ c ∈ l, IsSpace c = true) → (∀ c ∈ t, IsSpace c = true) →
      ServeHTTP setupRoutes fs os
        { Method := MethodPost, Path := "/log", Body := l ++ b ++ t, BodyErr := e }
      = ServeHTTP setupRoutes fs os
        { Method := MethodPost, Path := "/log", Body := b, BodyErr := e }) ∧
    ((ServeHTTP setupRoutes fs os
        { Method := MethodPost, Path := "/log", Body := b, BodyErr := e }).1.status = 201 →
      ∃ record, (ServeHTTP setupRoutes fs os
          { Method := MethodPost, Path := "/log", Body := b, BodyErr := e }).2
        = some (fs.getD [] ++ (record ++ ['\n'])) ∧ TrimSpace record = record) := by
  have h1 := post_congr fs os (TrimSpace b) b e (TrimSpace_idem b)
  refine ⟨by rw [h1], by rw [h1], ?_, ?_⟩
  · intro l t hl ht
    exact post_congr fs os (l ++ b ++ t) b e (TrimSpace_pad l b t hl ht)
  · intro h
    exact ⟨TrimSpace b, (status_created fs os _ h).2, TrimSpace_idem b⟩

theorem C10_trim_insensitive_witness :
    (ServeHTTP setupRoutes (some "x\n".toList) allOk
        { Method := MethodPost, Path := "/log",
          Body := " \t".toList ++ "a b".toList ++ "\r\n".toList, BodyErr := false }
      = ServeHTTP setupRoutes (some "x\n".toList) allOk
        { Method := MethodPost, Path := "/log", Body := "a b".toList, BodyErr := false }) ∧
    (∃ record, (ServeHTTP setupRoutes (some "x\n".toList) allOk
          { Method := MethodPost, Path := "/log", Body := "a b".toList, BodyErr := false }).2
        = some ((some "x\n".toList).getD [] ++ (record ++ ['\n'])) ∧
      TrimSpace record = record) :=
  have h := C10_trim_insensitive (some "x\n".toList) allOk "a b".toList false
  ⟨h.2.2.1 " \t".toList "\r\n".toList (by decide) (by decide), h.2.2.2 (by decide)⟩

end Storage
